import Mathlib

/-!
Verification of the Topside session-orchestration core against its source.

The definitions below are shallow embeddings of the JavaScript sources:
  * `src/services/transcribe-providers/whisper-local.js` (energy gate,
    hallucination filter, final-event emission),
  * `src/services/ai-service.js` (`parseButtons`, provider registry),
  * `src/services/transcribe-service.js` (provider registry),
  * `src/services/history-service.js` (`SessionOrchestrator`).
Machine reals are modelled exactly: the only floating-point comparison that
matters (RMS against a fixed threshold) is between exactly representable
values, so it is decided with integer arithmetic.
-/

namespace Topside

/-- Whitespace test for the JavaScript regex class `\s` and `String.prototype.trim`,
restricted to the ASCII whitespace characters (space, tab, LF, VT, FF, CR), which
cover every text this development evaluates. -/
def isWs (c : Char) : Bool :=
  c.toNat = 32 || c.toNat = 9 || c.toNat = 10 || c.toNat = 13 || c.toNat = 11 || c.toNat = 12

/-- Both-ends trim on character lists, as in `String.prototype.trim`. -/
def trimChars (l : List Char) : List Char :=
  ((l.dropWhile isWs).reverse.dropWhile isWs).reverse

/-- `text.trim()` of JavaScript. -/
def jsTrim (s : String) : String :=
  ⟨trimChars s.data⟩

/-- `text.trimEnd()` of JavaScript. -/
def jsTrimEnd (s : String) : String :=
  ⟨(s.data.reverse.dropWhile isWs).reverse⟩

/-- ASCII lower-casing of one character, the semantics JavaScript applies per
character for `toLowerCase` and for the `i` regex flag on ASCII input. -/
def lowerChar (c : Char) : Char :=
  if 65 ≤ c.toNat ∧ c.toNat ≤ 90 then Char.ofNat (c.toNat + 32) else c

/-- ASCII lower-casing of a string. -/
def lowerStr (s : String) : String :=
  ⟨s.data.map lowerChar⟩

/-- Case-insensitive substring test: `pat` (given already in lower case) occurs
somewhere in `s`.  This is the semantics of an unanchored `/…/i` regex whose body
is a literal. -/
def ciContains (s pat : String) : Bool :=
  decide (pat.data <:+: (lowerStr s).data)

/-- `text.split(sep)` of JavaScript for a one-character separator. -/
def splitOnChar (sep : Char) (l : List Char) : List (List Char) :=
  match l with
  | [] => [[]]
  | c :: rest =>
    match splitOnChar sep rest with
    | [] => [[c]]
    | h :: t => if c = sep then [] :: h :: t else (c :: h) :: t

/-- `parts.join(sep)` of JavaScript for a one-character separator. -/
def joinWith (sep : Char) : List (List Char) → List Char
  | [] => []
  | [x] => x
  | x :: xs => x ++ sep :: joinWith sep xs

section WhisperLocal

/-!  Embedding of `src/services/transcribe-providers/whisper-local.js`. -/

/-- `SPEECH_TAIL_CHUNKS` (whisper-local.js line 31): after speech ends, keep
accumulating for 10 chunks (≈500 ms) of trailing silence. -/
def SPEECH_TAIL_CHUNKS : Nat := 10

/-- Sum of squared 16-bit sample values of one PCM chunk. -/
def chunkSumSq (chunk : List Int) : Int :=
  (chunk.map (fun s => s * s)).sum

/-- The energy gate comparison `rms >= SILENCE_RMS_THRESHOLD` of
`sendAudioChunk` (whisper-local.js lines 190-191), decided exactly.
Each Float32 sample is `s / 2^15` (exactly representable), the RMS is
`sqrt((Σ (s/2^15)²) / n)` and the threshold is `0.005`, so the comparison
is equivalent to `10^6 · Σ s² ≥ 25 · 2^30 · n`.  An empty chunk compares
false (in JavaScript `0/0` is NaN, and `NaN >= t` is false). -/
def rmsAboveThreshold (chunk : List Int) : Bool :=
  decide (chunk ≠ []) &&
    decide ((1000000 : Int) * chunkSumSq chunk ≥ 25 * 1073741824 * chunk.length)

/-- The per-session accumulation state of `WhisperLocalProvider` (whisper-local.js
lines 47-55): the pending audio buffer, its sample count, the trailing-silence
countdown and the has-speech flag. -/
structure WhisperState where
  running : Bool
  pendingAudio : List (List Int)
  pendingSamples : Nat
  speechCountdown : Nat
  hasSpeechContent : Bool
deriving Repr, DecidableEq

/-- `WhisperLocalProvider.sendAudioChunk` (whisper-local.js lines 176-205).
Chunks are kept as their Int16 sample lists; the Float32 conversion is
value-preserving and is folded into `rmsAboveThreshold`. -/
def sendAudioChunk (st : WhisperState) (chunk : List Int) : WhisperState :=
  if !st.running then st
  else if rmsAboveThreshold chunk then
    { st with speechCountdown := SPEECH_TAIL_CHUNKS, hasSpeechContent := true,
              pendingAudio := st.pendingAudio ++ [chunk],
              pendingSamples := st.pendingSamples + chunk.length }
  else if st.speechCountdown > 0 then
    { st with speechCountdown := st.speechCountdown - 1,
              pendingAudio := st.pendingAudio ++ [chunk],
              pendingSamples := st.pendingSamples + chunk.length }
  else st

/-- `HALLUCINATION_PATTERNS[0]`, the regex `^\s*\.+\s*$`: optional whitespace,
one or more dots, optional whitespace, spanning the whole string. -/
def patJustDots (l : List Char) : Bool :=
  let rest := l.dropWhile isWs
  let dots := rest.takeWhile (fun c => c = '.')
  decide (dots ≠ []) && (rest.drop dots.length).all isWs

/-- `HALLUCINATION_PATTERNS[1]`, the regex `^(you|the|a|I|we|he|she|it)\.?$` with
the `i` flag: the whole string is one of the listed words, optionally followed by
a single period. -/
def patSinglePronoun (s : String) : Bool :=
  let l := (lowerStr s).data
  let core := if l.getLast? = some '.' then l.dropLast else l
  decide (core ∈ ["you".data, "the".data, "a".data, "i".data,
                  "we".data, "he".data, "she".data, "it".data])

/-- `HALLUCINATION_PATTERNS[2]`, the regex `thank(s| you)( for (watching|listening))?`
with the `i` flag.  The optional tail only extends a match, so the test succeeds
exactly when the text contains `thanks` or `thank you` case-insensitively. -/
def patThanks (s : String) : Bool :=
  ciContains s "thanks" || ciContains s "thank you"

/-- `HALLUCINATION_PATTERNS[3]`, the regex `please (like|subscribe)` with `i`. -/
def patPleaseLike (s : String) : Bool :=
  ciContains s "please like" || ciContains s "please subscribe"

/-- `HALLUCINATION_PATTERNS[4]`, the regex `\[(music|applause)\]` with `i`. -/
def patBracketNoise (s : String) : Bool :=
  ciContains s "[music]" || ciContains s "[applause]"

/-- `WhisperLocalProvider.isHallucination` (whisper-local.js lines 207-210):
empty or ≤1-character trimmed text is a hallucination, otherwise the trimmed
text is tested against each pattern. -/
def isHallucination (text : String) : Bool :=
  if (jsTrim text).length ≤ 1 then true
  else
    patJustDots (jsTrim text).data || patSinglePronoun (jsTrim text) ||
      patThanks (jsTrim text) || patPleaseLike (jsTrim text) ||
      patBracketNoise (jsTrim text)

/-- The final-event decision of `WhisperLocalProvider.runInference`
(whisper-local.js lines 262-267): the joined inference output is trimmed and
emitted as a `final` event exactly when it is non-empty and passes the
hallucination filter. -/
def runInferenceEmit (joined : String) : Option String :=
  let text := jsTrim joined
  if text ≠ "" && !(isHallucination text) then some text else none

end WhisperLocal

section ParseButtons

/-!  Embedding of `parseButtons` from `src/services/ai-service.js` (lines 43-88).
Each regular expression the function uses is compiled to an explicit matcher
with the JavaScript engine semantics (leftmost match, greedy/lazy backtracking)
for that particular pattern; the comments state the correspondence. -/

/-- Result shape `{content, buttons}` of `parseButtons`. -/
structure PBResult where
  content : String
  buttons : List String
deriving Repr, DecidableEq

/-- All characters are whitespace (`\s*` consuming the whole remainder). -/
def allWs (l : List Char) : Bool :=
  l.all isWs

/-- Case-insensitive literal prefix test; `pat` is given in lower case. -/
def ciStartsWith (pat l : List Char) : Bool :=
  pat.isPrefixOf (l.map lowerChar)

/-- Candidate closing brackets for `\]\s*$`: positions `q` with `l[q] = ']'`
followed only by whitespace. -/
def closeBracketPositions (l : List Char) : List Nat :=
  (List.range l.length).filter
    (fun q => ((l.drop q).head? = some ']' : Bool) && allWs (l.drop (q + 1)))

/-- Backtracking of `\s*([\s\S]+?)\]\s*$` after the literal `[BUTTONS:`:
`\s*` is greedy, so the engine first commits `a` whitespace characters with `a`
maximal and shrinks `a` on failure; the capture group is lazy, so for a given
`a` the first viable closing bracket `q ≥ a + 1` wins (the group must be
non-empty).  Returns the winning `(a, q)`. -/
def tagBacktrack (l : List Char) : Nat → Option (Nat × Nat)
  | 0 =>
    match (closeBracketPositions l).find? (fun q => decide (1 ≤ q)) with
    | some q => some (0, q)
    | none => none
  | a + 1 =>
    match (closeBracketPositions l).find? (fun q => decide (a + 2 ≤ q)) with
    | some q => some (a + 1, q)
    | none => tagBacktrack l a

/-- Matcher for `text.match(/\[BUTTONS:\s*([\s\S]+?)\]\s*$/i)` (ai-service.js
line 46): the match starts at the leftmost case-insensitive occurrence of
`[BUTTONS:` that can be completed; the result is the match index together with
the captured group. -/
def buttonsTagMatch (text : List Char) : Option (Nat × List Char) :=
  (List.range text.length).findSome? (fun i =>
    let suf := text.drop i
    if ciStartsWith "[buttons:".data suf then
      let afterColon := suf.drop 9
      match tagBacktrack afterColon (afterColon.takeWhile isWs).length with
      | some (a, q) => some (i, (afterColon.drop a).take (q - a))
      | none => none
    else none)

/-- `replace(/^["']|["']$/g, '')`: strip one leading and one trailing quote. -/
def stripQuotes (l : List Char) : List Char :=
  let l1 := match l with
    | c :: rest => if c = '"' || c = '\x27' then rest else l
    | [] => []
  match l1.getLast? with
  | some c => if c = '"' || c = '\x27' then l1.dropLast else l1
  | none => l1

/-- `match[1].split(',').map(s => s.trim().replace(/^["']|["']$/g, '')).filter(Boolean)`
(ai-service.js line 48). -/
def parseTagLabels (cap : List Char) : List String :=
  ((splitOnChar ',' cap).map
      (fun s => String.mk (stripQuotes (trimChars s)))).filter (fun s => s ≠ "")

/-- One element of the group `(\n\s*\[[^\]\n]+\])`.  The parse is deterministic:
`\s*` must stop at `[` (which is not whitespace) and the label runs to the first
`]` or newline, which must then be `]`. -/
def b1Elem (l : List Char) : Option (List Char) :=
  match l with
  | '\n' :: rest =>
    match rest.dropWhile isWs with
    | '[' :: rest2 =>
      let label := rest2.takeWhile (fun c => !(c = ']' || c = '\n'))
      if label.isEmpty then none
      else
        match rest2.drop label.length with
        | ']' :: rest3 => some rest3
        | _ => none
    | _ => none
  | _ => none

/-- Greedy repetition of `b1Elem`, counting elements.  Recursion is on a fuel
bound: each successful `b1Elem` consumes at least the leading newline, so fuel
`l.length + 1` is never the limiting factor. -/
def b1Loop : Nat → List Char → Nat → Nat × List Char
  | 0, l, n => (n, l)
  | fuel + 1, l, n =>
    match b1Elem l with
    | some rest => b1Loop fuel rest (n + 1)
    | none => (n, l)

/-- Whole-suffix acceptance by `(\n\s*\[[^\]\n]+\]){2,}\s*$`: at least two
elements, then only whitespace.  Repetition count is unambiguous because a
further element starts with `[`, which no all-whitespace remainder contains. -/
def matchesB1Body (m : List Char) : Bool :=
  let r := b1Loop (m.length + 1) m 0
  decide (2 ≤ r.1) && allWs r.2

/-- `text.match(/(\n\s*\[[^\]\n]+\]){2,}\s*$/)` (ai-service.js line 54): the
pattern is anchored at the end, so the leftmost match is the longest matching
suffix; returns start index and matched string. -/
def trailingMatchB1 (text : List Char) : Option (Nat × List Char) :=
  (List.range (text.length + 1)).findSome? (fun i =>
    let m := text.drop i
    if matchesB1Body m then some (i, m) else none)

/-- One element of the group `(\[[^\]\n]+\]\s*)`, consuming its trailing
whitespace greedily (deterministic: the next element starts with `[`). -/
def b2Elem (l : List Char) : Option (List Char) :=
  match l with
  | '[' :: rest =>
    let label := rest.takeWhile (fun c => !(c = ']' || c = '\n'))
    if label.isEmpty then none
    else
      match rest.drop label.length with
      | ']' :: rest3 => some (rest3.dropWhile isWs)
      | _ => none
  | _ => none

/-- Greedy repetition of `b2Elem`; the fuel bound is as in `b1Loop`. -/
def b2Loop : Nat → List Char → Nat → Nat × List Char
  | 0, l, n => (n, l)
  | fuel + 1, l, n =>
    match b2Elem l with
    | some rest => b2Loop fuel rest (n + 1)
    | none => (n, l)

/-- Whole-suffix acceptance by `\n?\s*(\[[^\]\n]+\]\s*){2,}\s*$`.  The leading
`\n?\s*` jointly absorb any whitespace (newline included), and after the last
element only whitespace may remain (already absorbed by the element). -/
def matchesB2Body (m : List Char) : Bool :=
  let r := b2Loop (m.length + 1) (m.dropWhile isWs) 0
  decide (2 ≤ r.1) && allWs r.2

/-- `text.match(/\n?\s*(\[[^\]\n]+\]\s*){2,}\s*$/)` (ai-service.js line 55). -/
def trailingMatchB2 (text : List Char) : Option (Nat × List Char) :=
  (List.range (text.length + 1)).findSome? (fun i =>
    let m := text.drop i
    if matchesB2Body m then some (i, m) else none)

/-- `[...m.matchAll(/\[([^\]\n]+)\]/g)]`: scan left to right, collecting each
bracketed label and continuing after it; on a failed `[` the engine advances
one position.  Fuel-bounded as in `b1Loop`: every step consumes at least one
character. -/
def collectLabelsF : Nat → List Char → List (List Char)
  | 0, _ => []
  | fuel + 1, l =>
    match l with
    | [] => []
    | '[' :: rest =>
      let label := rest.takeWhile (fun c => !(c = ']' || c = '\n'))
      if label.isEmpty then collectLabelsF fuel rest
      else
        match rest.drop label.length with
        | ']' :: rest3 => label :: collectLabelsF fuel rest3
        | _ => collectLabelsF fuel rest
    | _ :: rest => collectLabelsF fuel rest

/-- Entry point for the label scan. -/
def collectLabels (l : List Char) : List (List Char) :=
  collectLabelsF (l.length + 1) l

/-- `trailing[0]` label extraction with trim and `filter(Boolean)`
(ai-service.js line 57). -/
def trailingLabels (m : List Char) : List String :=
  ((collectLabels m).map (fun lab => jsTrim (String.mk lab))).filter (fun s => s ≠ "")

/-- `replace(/^[-•*]\s*/, '')`: strip a single list marker and the whitespace
after it. -/
def stripMarker (l : List Char) : List Char :=
  match l with
  | c :: rest => if c = '-' || c = '•' || c = '*' then rest.dropWhile isWs else l
  | [] => []

/-- `line.split(/\s+/).length` for a line with no leading whitespace: the
number of maximal non-whitespace runs. -/
def wordCount (l : List Char) : Nat :=
  (l.zip (' ' :: l)).countP (fun cp => !isWs cp.1 && isWs cp.2)

/-- `/[.!?:;]$/.test(line)`. -/
def endsPunct (l : List Char) : Bool :=
  match l.getLast? with
  | some c => c = '.' || c = '!' || c = '?' || c = ':' || c = ';'
  | none => false

/-- The trailing bare-line counting loop (ai-service.js lines 66-76), given the
lines in reverse order: count at most four trailing lines that are 1-5 words
with no terminal punctuation, stopping at an empty or disqualifying line. -/
def countBare (revLines : List (List Char)) (n : Nat) : Nat :=
  match revLines with
  | [] => n
  | l :: rest =>
    if 4 ≤ n then n
    else
      let line := stripMarker (trimChars l)
      if line.isEmpty then n
      else if wordCount line ≤ 5 && !endsPunct line then countBare rest (n + 1)
      else n

/-- Leftmost case-insensitive occurrence of the fragment `[BUTTONS:`
(for `replace(/\[BUTTONS:[\s\S]*$/i, '')`, ai-service.js line 85). -/
def buttonsFragmentIndex (text : List Char) : Option Nat :=
  (List.range text.length).find? (fun i => ciStartsWith "[buttons:".data (text.drop i))

/-- Final fallback of `parseButtons` (ai-service.js lines 84-87): strip an
incomplete `[BUTTONS:` fragment; if that changed the trimmed text, return the
cleaned text with no buttons, else return the input unchanged. -/
def parseButtonsClean (text : String) : PBResult :=
  let cleaned :=
    match buttonsFragmentIndex text.data with
    | some i => jsTrim (String.mk (text.data.take i))
    | none => jsTrim text
  if cleaned ≠ jsTrim text then { content := cleaned, buttons := [] }
  else { content := text, buttons := [] }

/-- Bare-line fallback of `parseButtons` (ai-service.js lines 63-83): if the
response ends in 2-4 bare short lines and non-empty content remains above them,
extract those lines as buttons; otherwise continue to the cleanup fallback. -/
def parseButtonsBare (text : String) : PBResult :=
  let lines := splitOnChar '\n' (jsTrimEnd text).data
  let bareCount := countBare lines.reverse 0
  if 2 ≤ bareCount then
    let bareLabels := ((lines.drop (lines.length - bareCount)).map
        (fun l => String.mk (stripMarker (trimChars l)))).filter (fun s => s ≠ "")
    let remaining := String.mk (trimChars (joinWith '\n' (lines.take (lines.length - bareCount))))
    if remaining ≠ "" then { content := remaining, buttons := bareLabels }
    else parseButtonsClean text
  else parseButtonsClean text

/-- `parseButtons` (ai-service.js lines 43-88): explicit `[BUTTONS: …]` tag
first, then consecutive trailing `[Label]` tokens, then bare short lines, then
incomplete-tag cleanup. -/
def parseButtons (text : String) : PBResult :=
  if text = "" then { content := text, buttons := [] }
  else
    match buttonsTagMatch text.data with
    | some iCap =>
      { content := jsTrim (String.mk (text.data.take iCap.1)),
        buttons := parseTagLabels iCap.2 }
    | none =>
      match trailingMatchB1 text.data <|> trailingMatchB2 text.data with
      | some im =>
        let labels := trailingLabels im.2
        if 2 ≤ labels.length then
          { content := jsTrim (String.mk (text.data.take im.1)), buttons := labels }
        else parseButtonsBare text
      | none => parseButtonsBare text

end ParseButtons

section Orchestrator

/-!  Embedding of `SessionOrchestrator` from `src/services/history-service.js`
(lines 151-658).  The orchestrator runs on a single-threaded event loop; each
`async` handler is split at its `await` suspension points into an entry
function and explicit resumption functions, with the pending continuation
recorded in the state (`fin` for `finalizeRound`/`respondToUser`, `can` for
`onCancel`).  UI-only side effects that no property below observes (overlay
webContents payload details, highlight/preview geometry, clipboard, token-usage
accounting, timestamps) are elided; emitted UI events, history writes,
transcription stop calls and AI-call initiations are tracked explicitly. -/

/-- The `State` enumeration (history-service.js lines 151-156). -/
inductive OState
  | IDLE
  | RECORDING
  | CONVERSING
  | CANCELLED
deriving Repr, DecidableEq

/-- Message roles. -/
inductive Role
  | user
  | assistant
deriving Repr, DecidableEq

/-- One conversation message `{role, content, buttons}`. -/
structure MessageR where
  role : Role
  content : String
  buttons : List String
deriving Repr, DecidableEq

/-- One finalized speech segment `{id, text, …}` (timestamp elided). -/
structure SegmentR where
  id : Nat
  text : String
deriving Repr, DecidableEq

/-- `currentRound`: segments, the id counter, and the running interim text
(`currentPartial` in the source). -/
structure RoundR where
  segments : List SegmentR
  segmentCounter : Nat
  interimText : String
deriving Repr, DecidableEq

/-- `{ segments: [], segmentCounter: 0, currentPartial: '' }`. -/
def emptyRound : RoundR :=
  { segments := [], segmentCounter := 0, interimText := "" }

/-- Emitted UI events, named by purpose. -/
inductive UEvent
  | shown
  | newRound
  | finalizingStarted
  | thinking (userMessage : String)
  | transcriptUpdated
  | roundComplete
  | cancelled
  | hidden
deriving Repr, DecidableEq

/-- Where a pending `finalizeRound`/`respondToUser` invocation is suspended;
`myRound` is the round number captured at line 407 before any `await`. -/
inductive FinPhase
  | awaitContext (myRound : Nat)
  | awaitStop (myRound : Nat)
  | awaitAI (myRound : Nat)
deriving Repr, DecidableEq

/-- Where a pending `onCancel` invocation is suspended; the timer delay is the
fixed 300 ms of line 604. -/
inductive CancelPhase
  | awaitStop
  | timerPending (delayMs : Nat)
deriving Repr, DecidableEq

/-- The orchestrator state: the source's mutable fields plus explicit
continuations and observation counters (stop-transcription calls, AI-call
initiations, history records handed to `historyService.save`, emitted UI
events). -/
structure Orch where
  state : OState
  roundNumber : Nat
  currentRound : RoundR
  messages : List MessageR
  aiInFlight : Bool
  finalizing : Bool
  contextPending : Bool
  fin : Option FinPhase
  can : Option CancelPhase
  sessionActive : Bool
  transcriptionOn : Bool
  stopCalls : Nat
  aiCalls : Nat
  savedSessions : List (List MessageR)
  events : List UEvent
deriving Repr, DecidableEq

/-- `round.segments.map(s => s.text).join(' ')` (line 427). -/
def joinTexts (segs : List SegmentR) : String :=
  String.mk (joinWith ' ' (segs.map (fun s => s.text.data)))

/-- `reset` (lines 642-655): state to IDLE, flags cleared, conversation and
round cleared, round number to 0, context cleared, input monitor disarmed.
Pending promise continuations are untouched (a real pending `await` survives a
reset), and `reset` itself does not stop transcription. -/
def reset (st : Orch) : Orch :=
  { st with state := OState.IDLE, aiInFlight := false, finalizing := false,
            messages := [], currentRound := emptyRound, roundNumber := 0,
            contextPending := false, sessionActive := false }

/-- `hideAndReset` (lines 635-640): hide the overlay, then reset. -/
def hideAndReset (st : Orch) : Orch :=
  reset { st with events := st.events ++ [UEvent.hidden] }

/-- `saveAndReset` (lines 609-633), taken as one step: stop transcription,
save the session to history when it has at least one message, then
hide-and-reset.  The saved record is represented by its message list (id,
timestamps, screenshot and token counters elided). -/
def saveAndReset (st : Orch) : Orch :=
  let st1 := { st with stopCalls := st.stopCalls + 1, transcriptionOn := false }
  let st2 :=
    if st1.messages ≠ [] then
      { st1 with savedSessions := st1.savedSessions ++ [st1.messages] }
    else st1
  hideAndReset st2

/-- Synchronous prefix of `finalizeRound` (lines 404-415): state to CONVERSING,
finalizing flag set, the round number captured into `myRound`, the finalizing
UI event emitted; then the function suspends on `await this.contextReady` when
a context capture is pending (line 415), else calls `stopTranscription` and
suspends on its completion (line 421; the highlight hide of line 417 is
elided). -/
def finalizeStart (st : Orch) : Orch :=
  let st1 := { st with state := OState.CONVERSING, finalizing := true,
                       events := st.events ++ [UEvent.finalizingStarted] }
  if st1.contextPending then
    { st1 with fin := some (FinPhase.awaitContext st.roundNumber) }
  else
    { st1 with fin := some (FinPhase.awaitStop st.roundNumber),
               stopCalls := st1.stopCalls + 1 }

/-- `onTriggerDown` (lines 196-248), up to the first suspension point of the
work it starts: finalize when RECORDING; when CONVERSING start a new round
only if no AI call and no finalize is in flight (otherwise the trigger is
dropped); ignore the trigger when CANCELLED; otherwise start a new session. -/
def onTriggerDown (st : Orch) : Orch :=
  if st.state = OState.RECORDING then
    finalizeStart st
  else if st.state = OState.CONVERSING then
    if st.aiInFlight || st.finalizing then st
    else
      { st with roundNumber := st.roundNumber + 1,
                currentRound := emptyRound,
                state := OState.RECORDING,
                events := st.events ++ [UEvent.newRound],
                transcriptionOn := true }
  else if st.state ≠ OState.IDLE then st
  else
    { st with state := OState.RECORDING, roundNumber := 0,
              messages := [], currentRound := emptyRound,
              sessionActive := true,
              events := st.events ++ [UEvent.shown],
              transcriptionOn := true,
              contextPending := true }

/-- Synchronous prefix of `respondToUser` (lines 445-463): push the user
message, emit the thinking event, set the AI-in-flight flag and initiate the
`aiService.converse` call. -/
def respondStart (st : Orch) (userMessage : String) : Orch :=
  { st with messages := st.messages ++ [{ role := Role.user, content := userMessage, buttons := [] }],
            events := st.events ++ [UEvent.thinking userMessage],
            aiInFlight := true,
            aiCalls := st.aiCalls + 1 }

/-- Resumption of `finalizeRound` when the awaited context capture resolves
(line 416): the capture promise also clears `contextReady` (line 301); if the
round number changed, abort with no side effects (the `finally` of line 441
clears the finalizing flag); otherwise initiate `stopTranscription` and
suspend on it. -/
def finalizeResumeContext (st : Orch) : Orch :=
  match st.fin with
  | some (FinPhase.awaitContext r) =>
    let st1 := { st with contextPending := false }
    if st1.roundNumber ≠ r then { st1 with fin := none, finalizing := false }
    else
      { st1 with fin := some (FinPhase.awaitStop r),
                 stopCalls := st1.stopCalls + 1 }
  | _ => st

/-- Resumption of `finalizeRound` when `stopTranscription` completes
(lines 423-439): re-check the captured round number and abort on mismatch;
otherwise build the round transcript (space-joined segment texts, falling back
to the trimmed interim text), and either close the session via `saveAndReset`
(empty transcript) or enter `respondToUser`. -/
def finalizeResumeStop (st : Orch) : Orch :=
  match st.fin with
  | some (FinPhase.awaitStop r) =>
    let st1 := { st with transcriptionOn := false }
    if st1.roundNumber ≠ r then { st1 with fin := none, finalizing := false }
    else
      let joined := joinTexts st1.currentRound.segments
      let transcript :=
        if jsTrim joined = "" ∧ jsTrim st1.currentRound.interimText ≠ "" then
          jsTrim st1.currentRound.interimText
        else joined
      if jsTrim transcript = "" then
        { saveAndReset st1 with fin := none }
      else
        respondStart { st1 with fin := some (FinPhase.awaitAI r) } transcript
  | _ => st

/-- `/not configured|api key|credentials|invalid/i.test(err.message)`
(line 490). -/
def credentialErrorTest (msg : String) : Bool :=
  ciContains msg "not configured" || ciContains msg "api key" ||
    ciContains msg "credentials" || ciContains msg "invalid"

/-- `friendlyError` (lines 371-380) for generic errors: first line of the
message, truncated to 200 characters (the AWS signature-expiry special case is
elided — no property below exercises it). -/
def friendlyError (msg : String) : String :=
  let firstLine := jsTrim (String.mk (msg.data.takeWhile (fun c => c ≠ '\n')))
  if 200 < firstLine.length then String.mk (firstLine.data.take 200) ++ "..."
  else firstLine

/-- Resumption of `respondToUser` when the converse promise settles
(lines 465-496): a result arriving after the state left CONVERSING is
discarded; a success is parsed into content and buttons and appended as the
assistant message; a failure is converted into an error assistant message with
buttons chosen by the credential-error heuristic.  Either way the `finally`
blocks clear both flags. -/
def finalizeResumeAI (st : Orch) (result : Except String String) : Orch :=
  match st.fin with
  | some (FinPhase.awaitAI _) =>
    if st.state ≠ OState.CONVERSING then
      { st with aiInFlight := false, finalizing := false, fin := none }
    else
      match result with
      | Except.ok aiText =>
        let pb := parseButtons aiText
        { st with messages := st.messages ++
                    [{ role := Role.assistant, content := pb.content, buttons := pb.buttons }],
                  events := st.events ++ [UEvent.roundComplete],
                  aiInFlight := false, finalizing := false, fin := none }
      | Except.error msg =>
        let buttons := if credentialErrorTest msg then ["Settings", "Try again"]
                       else ["Try again"]
        { st with messages := st.messages ++
                    [{ role := Role.assistant,
                       content := "**Error:** " ++ friendlyError msg, buttons := buttons }],
                  events := st.events ++ [UEvent.roundComplete],
                  aiInFlight := false, finalizing := false, fin := none }
  | _ => st

/-- The context-capture promise resolving while nothing awaits it
(`captureContext` line 301 clears `contextReady`; screenshot/window payloads
are elided). -/
def captureDone (st : Orch) : Orch :=
  { st with contextPending := false }

/-- `onCancel` (lines 595-605), up to its suspension point: a no-op when IDLE;
otherwise state to CANCELLED and `stopTranscription` initiated (the preview
hide is elided). -/
def onCancel (st : Orch) : Orch :=
  if st.state = OState.IDLE then st
  else
    { st with state := OState.CANCELLED,
              can := some CancelPhase.awaitStop,
              stopCalls := st.stopCalls + 1 }

/-- Resumption of `onCancel` when `stopTranscription` completes (lines
602-604): emit the cancel UI event and schedule `hideAndReset` after the fixed
300 ms delay. -/
def cancelResumeStop (st : Orch) : Orch :=
  match st.can with
  | some CancelPhase.awaitStop =>
    { st with transcriptionOn := false,
              events := st.events ++ [UEvent.cancelled],
              can := some (CancelPhase.timerPending 300) }
  | _ => st

/-- The scheduled 300 ms timer firing: `hideAndReset` (line 604). -/
def cancelTimerFire (st : Orch) : Orch :=
  match st.can with
  | some (CancelPhase.timerPending _) => hideAndReset { st with can := none }
  | _ => st

/-- `onClose` (lines 589-593): a no-op when IDLE, else save-and-reset. -/
def onClose (st : Orch) : Orch :=
  if st.state = OState.IDLE then st else saveAndReset st

/-- The transcription `partial` listener (lines 309-313). -/
def onPartialEvent (st : Orch) (text : String) : Orch :=
  if st.state ≠ OState.RECORDING ∧ st.state ≠ OState.CONVERSING then st
  else
    { st with currentRound := { st.currentRound with interimText := text },
              events := st.events ++ [UEvent.transcriptUpdated] }

/-- The transcription `final` listener (lines 315-321): increment the segment
counter, append the trimmed text as a segment, clear the interim text. -/
def onFinalEvent (st : Orch) (text : String) : Orch :=
  if st.state ≠ OState.RECORDING ∧ st.state ≠ OState.CONVERSING then st
  else
    { st with
        currentRound :=
          { segments := st.currentRound.segments ++
              [{ id := st.currentRound.segmentCounter + 1, text := jsTrim text }],
            segmentCounter := st.currentRound.segmentCounter + 1,
            interimText := "" }
        events := st.events ++ [UEvent.transcriptUpdated] }

end Orchestrator

section ProviderRegistry

/-!  Embedding of the two provider registries: `AIService.getProvider`
(`src/services/ai-service.js` lines 156-169, with `invalidateClient` at
179-185) and `TranscribeService.getProvider`
(`src/services/transcribe-service.js` lines 20-36).  Provider instances are
represented by a creation generation plus the provider id they were built for,
and every call made on an instance is recorded in a trace. -/

/-- One lazily constructed provider instance. -/
structure ProviderInst where
  gen : Nat
  ptype : String
deriving Repr, DecidableEq

/-- Observable registry actions: construction of a fresh instance, the
provider teardown hook (`invalidateClient()`), and listener removal
(`removeAllListeners()`). -/
inductive RegistryEvent
  | constructed (inst : ProviderInst)
  | teardownHook (inst : ProviderInst)
  | listenersRemoved (inst : ProviderInst)
deriving Repr, DecidableEq

/-- The shared registry state shape: the active-provider config value, the
cached instance and its type, a generation counter, and the action trace. -/
structure RegistryState where
  configType : String
  provider : Option ProviderInst
  providerType : Option String
  nextGen : Nat
  trace : List RegistryEvent
deriving Repr, DecidableEq

/-- `AIService.getProvider` (ai-service.js lines 156-169): when the cached
provider type differs from the configured type, construct a fresh instance of
the configured provider class and cache it; nothing at all is called on the
previously cached instance.  Returns the updated state and the instance the
caller will use. -/
def getProviderAI (st : RegistryState) : RegistryState × Option ProviderInst :=
  if st.providerType ≠ some st.configType then
    let inst : ProviderInst := { gen := st.nextGen, ptype := st.configType }
    ({ st with provider := some inst, providerType := some st.configType,
               nextGen := st.nextGen + 1,
               trace := st.trace ++ [RegistryEvent.constructed inst] },
     some inst)
  else (st, st.provider)

/-- `AIService.invalidateClient` (ai-service.js lines 179-185): invoke the
cached provider's own `invalidateClient` hook (every AI provider defines one),
then drop the cache.  In the source this runs on secret changes and credential
refresh, not on provider switches. -/
def invalidateClientAI (st : RegistryState) : RegistryState :=
  let tr := match st.provider with
    | some old => [RegistryEvent.teardownHook old]
    | none => []
  { st with provider := none, providerType := none, trace := st.trace ++ tr }

/-- `TranscribeService.getProvider` (transcribe-service.js lines 20-36): as the
AI registry, except that the old cached instance, when present, gets its event
listeners removed (`removeAllListeners()`) before the fresh instance is
constructed; its `stop()`/teardown hook is not invoked. -/
def getProviderTS (st : RegistryState) : RegistryState × Option ProviderInst :=
  if st.providerType ≠ some st.configType then
    let cleanup := match st.provider with
      | some old => [RegistryEvent.listenersRemoved old]
      | none => []
    let inst : ProviderInst := { gen := st.nextGen, ptype := st.configType }
    ({ st with provider := some inst, providerType := some st.configType,
               nextGen := st.nextGen + 1,
               trace := st.trace ++ cleanup ++ [RegistryEvent.constructed inst] },
     some inst)
  else (st, st.provider)

end ProviderRegistry

/-!  ## Lemmas about trimming, lower-casing and substring containment -/

theorem trimChars_alt (l : List Char) :
    trimChars l = List.rdropWhile isWs (l.dropWhile isWs) := rfl

theorem dropWhile_trimChars (l : List Char) :
    List.dropWhile isWs (trimChars l) = trimChars l := by
  cases h : trimChars l with
  | nil => simp
  | cons a q =>
    have hpre : trimChars l <+: l.dropWhile isWs := by
      rw [trimChars_alt]; exact List.rdropWhile_prefix _ _
    rw [h] at hpre
    obtain ⟨t, ht⟩ := hpre
    have hne : l.dropWhile isWs ≠ [] := by rw [← ht]; simp
    have hhead : (l.dropWhile isWs).head hne = a := by
      rw [List.head_eq_iff_head?_eq_some, ← ht]; rfl
    have hna := List.head_dropWhile_not isWs l hne
    rw [hhead] at hna
    rw [List.dropWhile_cons, if_neg (by simpa using hna)]

theorem trimChars_idem (l : List Char) : trimChars (trimChars l) = trimChars l := by
  rw [trimChars_alt (trimChars l), dropWhile_trimChars, trimChars_alt,
    List.rdropWhile_idempotent]

theorem jsTrim_idem (t : String) : jsTrim (jsTrim t) = jsTrim t := by
  unfold jsTrim
  exact congrArg String.mk (trimChars_idem t.data)

theorem infix_dropWhile_aux (p t : List Char) (c : Char)
    (hc : p.head? = some c) (hw : isWs c = false) :
    ∀ s : List Char, p <:+: List.dropWhile isWs (s ++ p ++ t) := by
  intro s
  induction s with
  | nil =>
    cases p with
    | nil => simp at hc
    | cons a q =>
      simp only [List.head?_cons, Option.some.injEq] at hc
      subst hc
      simp only [List.nil_append, List.cons_append, List.dropWhile_cons, hw]
      simp only [Bool.false_eq_true, if_false]
      exact ⟨[], t, by simp⟩
  | cons x s ih =>
    have he : (x :: s) ++ p ++ t = x :: (s ++ p ++ t) := by simp
    rw [he, List.dropWhile_cons]
    by_cases hx : isWs x = true
    · rw [if_pos hx]; exact ih
    · rw [if_neg hx]
      exact ⟨x :: s, t, by simp⟩

theorem infix_dropWhile_of_head (p l : List Char) (c : Char)
    (hc : p.head? = some c) (hw : isWs c = false) (h : p <:+: l) :
    p <:+: l.dropWhile isWs := by
  obtain ⟨s, t, hst⟩ := h
  rw [← hst]
  exact infix_dropWhile_aux p t c hc hw s

theorem infix_trimChars (p l : List Char) (c d : Char)
    (hc : p.head? = some c) (hwc : isWs c = false)
    (hd : p.getLast? = some d) (hwd : isWs d = false) (h : p <:+: l) :
    p <:+: trimChars l := by
  have h1 : p <:+: l.dropWhile isWs := infix_dropWhile_of_head p l c hc hwc h
  have h2 : p.reverse <:+: (l.dropWhile isWs).reverse := List.reverse_infix.mpr h1
  have h3 : p.reverse <:+: ((l.dropWhile isWs).reverse).dropWhile isWs := by
    refine infix_dropWhile_of_head _ _ d ?_ hwd h2
    rw [List.head?_reverse]; exact hd
  have h4 := List.reverse_infix.mpr h3
  rw [List.reverse_reverse] at h4
  exact h4

theorem toNat_ofNat_valid (n : Nat) (h : n < 55296) : (Char.ofNat n).toNat = n := by
  have hv : n.isValidChar := Or.inl h
  simp [Char.ofNat, hv]
  rfl

theorem isWs_lowerChar (c : Char) : isWs (lowerChar c) = isWs c := by
  unfold lowerChar
  by_cases h : 65 ≤ c.toNat ∧ c.toNat ≤ 90
  · rw [if_pos h]
    have h1 : (Char.ofNat (c.toNat + 32)).toNat = c.toNat + 32 :=
      toNat_ofNat_valid _ (by omega)
    have e1 : isWs (Char.ofNat (c.toNat + 32)) = false := by
      simp only [isWs, h1, Bool.or_eq_false_iff, decide_eq_false_iff_not]
      omega
    have e2 : isWs c = false := by
      simp only [isWs, Bool.or_eq_false_iff, decide_eq_false_iff_not]
      omega
    rw [e1, e2]
  · rw [if_neg h]

theorem isWs_comp_lower : (isWs ∘ lowerChar) = isWs :=
  funext fun c => isWs_lowerChar c

theorem dropWhile_map_lower (l : List Char) :
    (l.map lowerChar).dropWhile isWs = (l.dropWhile isWs).map lowerChar := by
  rw [List.dropWhile_map, isWs_comp_lower]

theorem trimChars_map_lower (l : List Char) :
    trimChars (l.map lowerChar) = (trimChars l).map lowerChar := by
  unfold trimChars
  rw [dropWhile_map_lower, ← List.map_reverse, dropWhile_map_lower, ← List.map_reverse]

theorem ciContains_jsTrim (t pat : String) (c d : Char)
    (hc : pat.data.head? = some c) (hwc : isWs c = false)
    (hd : pat.data.getLast? = some d) (hwd : isWs d = false)
    (h : ciContains t pat = true) : ciContains (jsTrim t) pat = true := by
  unfold ciContains at h ⊢
  rw [decide_eq_true_iff] at h ⊢
  have hl : (lowerStr (jsTrim t)).data = trimChars (t.data.map lowerChar) := by
    unfold lowerStr jsTrim
    exact (trimChars_map_lower t.data).symm
  rw [hl]
  exact infix_trimChars pat.data (t.data.map lowerChar) c d hc hwc hd hwd h

theorem isHallucination_jsTrim (t : String) :
    isHallucination (jsTrim t) = isHallucination t := by
  unfold isHallucination
  rw [jsTrim_idem]

theorem runInferenceEmit_eq_none (t : String) (h : isHallucination t = true) :
    runInferenceEmit t = none := by
  unfold runInferenceEmit
  have h2 : isHallucination (jsTrim t) = true := by
    rw [isHallucination_jsTrim]; exact h
  simp [h2]

theorem isHallucination_of_pattern (t : String)
    (h : patThanks (jsTrim t) = true ∨ patPleaseLike (jsTrim t) = true
       ∨ patBracketNoise (jsTrim t) = true) :
    isHallucination t = true := by
  unfold isHallucination
  by_cases hl : (jsTrim t).length ≤ 1
  · rw [if_pos hl]
  · rw [if_neg hl]
    rcases h with h | h | h <;> simp [h]

/-!  ## Lemmas about the energy gate -/

theorem chunkSumSq_of_all_zero (l : List Int) (h : l.all (fun s => s = 0) = true) :
    chunkSumSq l = 0 := by
  induction l with
  | nil => rfl
  | cons c cs ih =>
    simp only [List.all_cons, Bool.and_eq_true, decide_eq_true_iff] at h
    unfold chunkSumSq at ih ⊢
    simp only [List.map_cons, List.sum_cons, h.1, ih h.2]
    ring

theorem rmsAboveThreshold_all_zero (chunk : List Int)
    (h : chunk.all (fun s => s = 0) = true) :
    rmsAboveThreshold chunk = false := by
  unfold rmsAboveThreshold
  cases chunk with
  | nil => simp
  | cons c cs =>
    have hz := chunkSumSq_of_all_zero _ h
    rw [hz]
    simp only [Bool.and_eq_false_iff, decide_eq_false_iff_not]
    right
    intro hge
    have hlen : (0 : Int) < 25 * 1073741824 * ((c :: cs).length : Int) := by
      have : (0 : Int) < ((c :: cs).length : Int) := by
        simp
      positivity
    omega

theorem sendAudioChunk_sub_iterate (chunk : List Int)
    (hsub : rmsAboveThreshold chunk = false) :
    ∀ (n : Nat) (st : WhisperState), st.running = true →
      ((fun s => sendAudioChunk s chunk)^[n] st).pendingAudio.length
        = st.pendingAudio.length + min st.speechCountdown n := by
  intro n
  induction n with
  | zero => intro st _; simp
  | succ n ih =>
    intro st h
    rw [Function.iterate_succ_apply]
    by_cases hc : st.speechCountdown = 0
    · have hfix : sendAudioChunk st chunk = st := by
        unfold sendAudioChunk
        simp [h, hsub, hc]
      rw [hfix, ih st h, hc]
      simp
    · have hstep : sendAudioChunk st chunk =
          { st with speechCountdown := st.speechCountdown - 1,
                    pendingAudio := st.pendingAudio ++ [chunk],
                    pendingSamples := st.pendingSamples + chunk.length } := by
        unfold sendAudioChunk
        simp [h, hsub, Nat.pos_of_ne_zero hc]
      rw [hstep, ih _ (by simp [h])]
      simp
      omega

/-!  ## Claim theorems -/

/-- C4: for every incoming audio chunk while the provider is running, the chunk
is appended to the pending buffer iff its RMS is at or above the silence
threshold or a positive trailing-speech countdown remains; an above-threshold
chunk resets the countdown to 10; a sub-threshold chunk inside the window is
kept and decrements the countdown; a sub-threshold chunk outside the window
leaves the state untouched; an all-zero chunk is always sub-threshold; and a
run of n sub-threshold chunks appends exactly min(countdown, n) of them, so at
most 10. -/
theorem c4_energy_gate (st : WhisperState) (chunk : List Int)
    (hrun : st.running = true) :
    ((sendAudioChunk st chunk).pendingAudio = st.pendingAudio ++ [chunk]
        ↔ (rmsAboveThreshold chunk = true ∨ 0 < st.speechCountdown))
    ∧ (rmsAboveThreshold chunk = true →
        (sendAudioChunk st chunk).speechCountdown = SPEECH_TAIL_CHUNKS)
    ∧ (rmsAboveThreshold chunk = false → 0 < st.speechCountdown →
        (sendAudioChunk st chunk).speechCountdown = st.speechCountdown - 1
          ∧ (sendAudioChunk st chunk).pendingAudio = st.pendingAudio ++ [chunk])
    ∧ (rmsAboveThreshold chunk = false → st.speechCountdown = 0 →
        sendAudioChunk st chunk = st)
    ∧ (chunk.all (fun s => s = 0) = true → rmsAboveThreshold chunk = false)
    ∧ (rmsAboveThreshold chunk = false → ∀ n : Nat,
        ((fun s => sendAudioChunk s chunk)^[n] st).pendingAudio.length
          = st.pendingAudio.length + min st.speechCountdown n) := by
  refine ⟨?_, ?_, ?_, ?_, ?_, ?_⟩
  · constructor
    · intro happ
      by_cases hr : rmsAboveThreshold chunk = true
      · exact Or.inl hr
      · right
        by_contra hc
        have hc0 : st.speechCountdown = 0 := by omega
        have : sendAudioChunk st chunk = st := by
          unfold sendAudioChunk
          simp [hrun, hr, hc0]
        rw [this] at happ
        have := congrArg List.length happ
        simp at this
    · intro h
      unfold sendAudioChunk
      rcases h with h | h
      · simp [hrun, h]
      · by_cases hr : rmsAboveThreshold chunk = true
        · simp [hrun, hr]
        · simp [hrun, hr, h]
  · intro h
    unfold sendAudioChunk
    simp [hrun, h]
  · intro hr h
    unfold sendAudioChunk
    simp [hrun, hr, h]
  · intro hr h
    unfold sendAudioChunk
    simp [hrun, hr, h]
  · exact rmsAboveThreshold_all_zero chunk
  · intro hr n
    exact sendAudioChunk_sub_iterate chunk hr n st hrun

/-- C4 witness: a concrete all-zero chunk outside the trailing window is
dropped entirely, and ten sub-threshold chunks at most are kept from a full
countdown. -/
theorem c4_energy_gate_witness :
    sendAudioChunk ⟨true, [], 0, 0, false⟩ [0, 0, 0, 0] = ⟨true, [], 0, 0, false⟩
    ∧ ((fun s => sendAudioChunk s [0, 0, 0, 0])^[12]
          ⟨true, [], 0, 10, true⟩).pendingAudio.length = 10 := by
  constructor
  · exact (c4_energy_gate ⟨true, [], 0, 0, false⟩ [0, 0, 0, 0] rfl).2.2.2.1
      (by decide) rfl
  · have h := (c4_energy_gate ⟨true, [], 0, 10, true⟩ [0, 0, 0, 0] rfl).2.2.2.2.2
      (by decide) 12
    simpa using h

/-- C5: the hallucination filter rejects ".", "you" and
"Thank you for watching!" (none is emitted as a final event), rejects any
output whose trimmed text is at most one character, and accepts
"turn off the lights", which is emitted as a final event. -/
theorem c5_hallucination_filter :
    runInferenceEmit "." = none
    ∧ runInferenceEmit "you" = none
    ∧ runInferenceEmit "Thank you for watching!" = none
    ∧ (∀ t : String, (jsTrim t).length ≤ 1 →
        isHallucination t = true ∧ runInferenceEmit t = none)
    ∧ isHallucination "turn off the lights" = false
    ∧ runInferenceEmit "turn off the lights" = some "turn off the lights" := by
  refine ⟨by decide, by decide, by decide, ?_, by decide, by decide⟩
  intro t h
  have hh : isHallucination t = true := by
    unfold isHallucination
    rw [if_pos h]
  exact ⟨hh, runInferenceEmit_eq_none t hh⟩

/-- C5 witness: the short-output clause applied at the one-character output
"a". -/
theorem c5_hallucination_filter_witness :
    isHallucination "a" = true ∧ runInferenceEmit "a" = none :=
  c5_hallucination_filter.2.2.2.1 "a" (by decide)

/-- C10: the filler patterns are unanchored case-insensitive substring tests:
any output containing "thank you", "thanks", "please like",
"please subscribe", "[music]" or "[applause]" anywhere in its text is
classified as a hallucination and never emitted as a final event, regardless
of its length or remaining content. -/
theorem c10_substring_hallucination (t : String)
    (h : ciContains t "thank you" = true ∨ ciContains t "thanks" = true
       ∨ ciContains t "please like" = true ∨ ciContains t "please subscribe" = true
       ∨ ciContains t "[music]" = true ∨ ciContains t "[applause]" = true) :
    isHallucination t = true ∧ runInferenceEmit t = none := by
  have hh : isHallucination t = true := by
    rcases h with h | h | h | h | h | h
    · refine isHallucination_of_pattern t (Or.inl ?_)
      have := ciContains_jsTrim t "thank you" 't' 'u' rfl (by decide) (by decide) (by decide) h
      simp [patThanks, this]
    · refine isHallucination_of_pattern t (Or.inl ?_)
      have := ciContains_jsTrim t "thanks" 't' 's' rfl (by decide) (by decide) (by decide) h
      simp [patThanks, this]
    · refine isHallucination_of_pattern t (Or.inr (Or.inl ?_))
      have := ciContains_jsTrim t "please like" 'p' 'e' rfl (by decide) (by decide) (by decide) h
      simp [patPleaseLike, this]
    · refine isHallucination_of_pattern t (Or.inr (Or.inl ?_))
      have := ciContains_jsTrim t "please subscribe" 'p' 'e' rfl (by decide) (by decide) (by decide) h
      simp [patPleaseLike, this]
    · refine isHallucination_of_pattern t (Or.inr (Or.inr ?_))
      have := ciContains_jsTrim t "[music]" '[' ']' rfl (by decide) (by decide) (by decide) h
      simp [patBracketNoise, this]
    · refine isHallucination_of_pattern t (Or.inr (Or.inr ?_))
      have := ciContains_jsTrim t "[applause]" '[' ']' rfl (by decide) (by decide) (by decide) h
      simp [patBracketNoise, this]
  exact ⟨hh, runInferenceEmit_eq_none t hh⟩

/-- C10 witness: a long legitimate utterance containing the words "thank you"
is silently discarded. -/
theorem c10_substring_hallucination_witness :
    isHallucination "Could you draft a thank you note to the team" = true
    ∧ runInferenceEmit "Could you draft a thank you note to the team" = none :=
  c10_substring_hallucination "Could you draft a thank you note to the team"
    (Or.inl (by decide))

/-- C6: a response ending in a complete `[BUTTONS: …]` tag yields the text
before the tag as content and the quoted labels as buttons; a response ending
in a truncated tag with no closing bracket has the fragment stripped and
yields no buttons. -/
theorem c6_parse_buttons_examples :
    parseButtons "Here\x27s the fix.\n[BUTTONS: \"More detail\", \"Simpler\"]"
      = { content := "Here\x27s the fix.", buttons := ["More detail", "Simpler"] }
    ∧ parseButtons "Partial answer\n[BUTTONS: \"One"
      = { content := "Partial answer", buttons := [] } := by
  constructor
  · decide
  · decide

/-- C7 counterexample: on the bracket-free input
"Explanation text\nMore detail\nSimpler version" the first line itself
qualifies as a bare short line (two words, no terminal punctuation), so the
bare-line scan swallows all three lines, the remaining content is empty, and
`parseButtons` bails out, returning the whole text with no buttons — not
content "Explanation text" with buttons ["More detail", "Simpler version"]. -/
theorem c7_bare_lines_counterexample :
    parseButtons "Explanation text\nMore detail\nSimpler version"
      = { content := "Explanation text\nMore detail\nSimpler version", buttons := [] }
    ∧ parseButtons "Explanation text\nMore detail\nSimpler version"
      ≠ { content := "Explanation text", buttons := ["More detail", "Simpler version"] } := by
  constructor
  · decide
  · decide

/-- C7 amended: trailing bare short lines are extracted as buttons when the
preceding content is not itself swallowed by the bare-line scan — here the
content line ends in terminal punctuation, so the two trailing bare lines
become buttons and the preceding text is kept as content. -/
theorem c7_bare_lines_amended :
    parseButtons "Explanation text.\nMore detail\nSimpler version"
      = { content := "Explanation text.", buttons := ["More detail", "Simpler version"] } := by
  decide

/-- C9 counterexample: with a cached bedrock provider instance and the config
switched to openai, the next `AIService.getProvider` constructs and returns a
fresh openai instance but never invokes the old instance's teardown hook
(`invalidateClient`) — the trace gains only the construction event. -/
theorem c9_provider_switch_counterexample :
    (getProviderAI { configType := "openai",
                     provider := some { gen := 0, ptype := "bedrock" },
                     providerType := some "bedrock", nextGen := 1,
                     trace := [RegistryEvent.constructed { gen := 0, ptype := "bedrock" }] }).2
      = some { gen := 1, ptype := "openai" }
    ∧ (getProviderAI { configType := "openai",
                       provider := some { gen := 0, ptype := "bedrock" },
                       providerType := some "bedrock", nextGen := 1,
                       trace := [RegistryEvent.constructed { gen := 0, ptype := "bedrock" }] }).1.trace
      = [RegistryEvent.constructed { gen := 0, ptype := "bedrock" },
         RegistryEvent.constructed { gen := 1, ptype := "openai" }]
    ∧ RegistryEvent.teardownHook { gen := 0, ptype := "bedrock" }
        ∉ (getProviderAI { configType := "openai",
                           provider := some { gen := 0, ptype := "bedrock" },
                           providerType := some "bedrock", nextGen := 1,
                           trace := [RegistryEvent.constructed { gen := 0, ptype := "bedrock" }] }).1.trace := by
  refine ⟨by decide, by decide, by decide⟩

/-- C9 amended: after the active provider config changes, the next access in
either registry constructs, caches and returns a fresh instance of the new
provider, so no connection, client or listener state of the previous instance
is reused by a subsequent converse or start call; the transcription registry
additionally removes the old instance's event listeners, but neither registry
invokes the old instance's teardown hook on the switch — the old instance is
simply dropped. -/
theorem c9_provider_switch_amended (st : RegistryState)
    (h : st.providerType ≠ some st.configType) :
    (getProviderAI st).2 = some { gen := st.nextGen, ptype := st.configType }
    ∧ (getProviderAI st).1.provider = some { gen := st.nextGen, ptype := st.configType }
    ∧ (getProviderAI st).1.trace
        = st.trace ++ [RegistryEvent.constructed { gen := st.nextGen, ptype := st.configType }]
    ∧ (getProviderTS st).2 = some { gen := st.nextGen, ptype := st.configType }
    ∧ (getProviderTS st).1.trace
        = st.trace
            ++ (match st.provider with
                | some old => [RegistryEvent.listenersRemoved old]
                | none => [])
            ++ [RegistryEvent.constructed { gen := st.nextGen, ptype := st.configType }] := by
  unfold getProviderAI getProviderTS
  rw [if_pos h, if_pos h]
  exact ⟨rfl, rfl, rfl, rfl, rfl⟩

/-- C9 amended witness: the switch of the counterexample, through the amended
statement. -/
theorem c9_provider_switch_amended_witness :
    (getProviderAI { configType := "openai",
                     provider := some { gen := 0, ptype := "bedrock" },
                     providerType := some "bedrock", nextGen := 1,
                     trace := [] }).2 = some { gen := 1, ptype := "openai" }
    ∧ (getProviderTS { configType := "openai",
                       provider := some { gen := 0, ptype := "bedrock" },
                       providerType := some "bedrock", nextGen := 1,
                       trace := [] }).1.trace
      = [RegistryEvent.listenersRemoved { gen := 0, ptype := "bedrock" },
         RegistryEvent.constructed { gen := 1, ptype := "openai" }] := by
  have h := c9_provider_switch_amended
    { configType := "openai", provider := some { gen := 0, ptype := "bedrock" },
      providerType := some "bedrock", nextGen := 1, trace := [] } (by decide)
  exact ⟨h.1, h.2.2.2.2⟩

/-- C1: a trigger received while CONVERSING with the AI-in-flight or
finalizing flag set is ignored — no state change, no round increment, no
message append, no event; this holds for any number of rapid triggers, so a
finalize pending at its stop-transcription await still resumes against the
unchanged state, and the resumption initiates the AI conversation call at most
once — exactly once when the round transcript is non-empty, never twice. -/
theorem c1_trigger_backpressure (st : Orch) (r : Nat)
    (h1 : st.state = OState.CONVERSING)
    (h2 : st.aiInFlight = true ∨ st.finalizing = true) :
    onTriggerDown st = st
    ∧ (∀ n : Nat, onTriggerDown^[n] st = st)
    ∧ (st.fin = some (FinPhase.awaitStop r) → ∀ n : Nat,
        finalizeResumeStop (onTriggerDown^[n] st) = finalizeResumeStop st)
    ∧ (st.fin = some (FinPhase.awaitStop r) →
        (finalizeResumeStop st).aiCalls ≤ st.aiCalls + 1
        ∧ (st.roundNumber = r →
            ((finalizeResumeStop st).aiCalls = st.aiCalls + 1
              ↔ (jsTrim (joinTexts st.currentRound.segments) ≠ ""
                  ∨ jsTrim st.currentRound.interimText ≠ "")))) := by
  have hTrig : onTriggerDown st = st := by
    rcases h2 with h2 | h2 <;> simp [onTriggerDown, h1, h2]
  refine ⟨hTrig, fun n => Function.iterate_fixed hTrig n, ?_, ?_⟩
  · intro _ n
    rw [Function.iterate_fixed hTrig n]
  · intro hf
    by_cases hr : st.roundNumber = r
    · by_cases hj : jsTrim (joinTexts st.currentRound.segments) = ""
      · by_cases hi : jsTrim st.currentRound.interimText = ""
        · have he : (finalizeResumeStop st).aiCalls = st.aiCalls := by
            simp [finalizeResumeStop, hf, hr, hj, hi, saveAndReset, hideAndReset,
              reset, apply_ite]
          refine ⟨by omega, fun _ => ?_⟩
          rw [he]
          constructor
          · intro hx; omega
          · intro hx
            rcases hx with hx | hx
            · exact absurd hj hx
            · exact absurd hi hx
        · have he : (finalizeResumeStop st).aiCalls = st.aiCalls + 1 := by
            simp [finalizeResumeStop, hf, hr, hj, hi, jsTrim_idem, respondStart]
          refine ⟨by omega, fun _ => ?_⟩
          rw [he]
          simp [hi]
      · have he : (finalizeResumeStop st).aiCalls = st.aiCalls + 1 := by
          simp [finalizeResumeStop, hf, hr, hj, respondStart]
        refine ⟨by omega, fun _ => ?_⟩
        rw [he]
        simp [hj]
    · have he : finalizeResumeStop st
          = { st with transcriptionOn := false, fin := none, finalizing := false } := by
        simp [finalizeResumeStop, hf, hr]
      refine ⟨by rw [he]; exact Nat.le_succ _, fun hr2 => absurd hr2 hr⟩

/-- C1 witness: a concrete CONVERSING state with a finalize pending at its
stop-transcription await; a trigger leaves it unchanged and resuming the
finalize makes exactly one AI call. -/
theorem c1_trigger_backpressure_witness :
    onTriggerDown ⟨OState.CONVERSING, 1, ⟨[⟨1, "hello"⟩], 1, ""⟩, [], false, true,
        false, some (FinPhase.awaitStop 1), none, true, true, 1, 0, [], []⟩
      = ⟨OState.CONVERSING, 1, ⟨[⟨1, "hello"⟩], 1, ""⟩, [], false, true,
        false, some (FinPhase.awaitStop 1), none, true, true, 1, 0, [], []⟩
    ∧ (finalizeResumeStop ⟨OState.CONVERSING, 1, ⟨[⟨1, "hello"⟩], 1, ""⟩, [], false, true,
        false, some (FinPhase.awaitStop 1), none, true, true, 1, 0, [], []⟩).aiCalls = 0 + 1 := by
  have h := c1_trigger_backpressure
    ⟨OState.CONVERSING, 1, ⟨[⟨1, "hello"⟩], 1, ""⟩, [], false, true,
      false, some (FinPhase.awaitStop 1), none, true, true, 1, 0, [], []⟩ 1 rfl (Or.inr rfl)
  exact ⟨h.1, ((h.2.2.2 rfl).2 rfl).mpr (Or.inl (by decide))⟩

/-- C2: the round number is captured before any await inside finalize; when an
awaited step (context capture or transcription stop) resumes and the round
number no longer matches, finalize aborts — no transcript is built, no user or
assistant message is appended, the AI client is not invoked, nothing is saved
and no event is emitted; only the continuation and finalizing flag are cleared
(and, for the stop resumption, transcription is now stopped). -/
theorem c2_stale_round_guard (st st2 : Orch) (r r2 : Nat)
    (hf : st.fin = some (FinPhase.awaitContext r)) (hr : st.roundNumber ≠ r)
    (hf2 : st2.fin = some (FinPhase.awaitStop r2)) (hr2 : st2.roundNumber ≠ r2) :
    finalizeResumeContext st
      = { st with contextPending := false, fin := none, finalizing := false }
    ∧ (finalizeResumeContext st).messages = st.messages
    ∧ (finalizeResumeContext st).aiCalls = st.aiCalls
    ∧ (finalizeResumeContext st).savedSessions = st.savedSessions
    ∧ (finalizeResumeContext st).events = st.events
    ∧ finalizeResumeStop st2
      = { st2 with transcriptionOn := false, fin := none, finalizing := false }
    ∧ (finalizeResumeStop st2).messages = st2.messages
    ∧ (finalizeResumeStop st2).aiCalls = st2.aiCalls
    ∧ (finalizeResumeStop st2).savedSessions = st2.savedSessions
    ∧ (finalizeResumeStop st2).events = st2.events := by
  have e1 : finalizeResumeContext st
      = { st with contextPending := false, fin := none, finalizing := false } := by
    simp [finalizeResumeContext, hf, hr]
  have e2 : finalizeResumeStop st2
      = { st2 with transcriptionOn := false, fin := none, finalizing := false } := by
    simp [finalizeResumeStop, hf2, hr2]
  exact ⟨e1, by rw [e1], by rw [e1], by rw [e1], by rw [e1],
         e2, by rw [e2], by rw [e2], by rw [e2], by rw [e2]⟩

/-- C2 witness: a finalize that captured round 0 resuming after the round
number moved to 1, at both suspension points. -/
theorem c2_stale_round_guard_witness :
    finalizeResumeContext ⟨OState.CONVERSING, 1, emptyRound, [], false, true,
        true, some (FinPhase.awaitContext 0), none, true, true, 0, 0, [], []⟩
      = ⟨OState.CONVERSING, 1, emptyRound, [], false, false,
        false, none, none, true, true, 0, 0, [], []⟩
    ∧ finalizeResumeStop ⟨OState.CONVERSING, 1, emptyRound, [], false, true,
        false, some (FinPhase.awaitStop 0), none, true, true, 1, 0, [], []⟩
      = ⟨OState.CONVERSING, 1, emptyRound, [], false, false,
        false, none, none, true, false, 1, 0, [], []⟩ := by
  have h := c2_stale_round_guard
    ⟨OState.CONVERSING, 1, emptyRound, [], false, true,
      true, some (FinPhase.awaitContext 0), none, true, true, 0, 0, [], []⟩
    ⟨OState.CONVERSING, 1, emptyRound, [], false, true,
      false, some (FinPhase.awaitStop 0), none, true, true, 1, 0, [], []⟩
    0 0 rfl (by decide) rfl (by decide)
  exact ⟨h.1, h.2.2.2.2.2.1⟩

/-- C3: on finalize, the round transcript is the space-joined concatenation of
the finalized segment texts (the six segments of the example joining to
"find files bigger than a gig"); with no usable segment text but a non-empty
interim text, the trimmed interim text becomes the transcript; with neither,
no AI call is made and the session goes straight to save-and-close — and a
session whose message list is empty is never written to history. -/
theorem c3_transcript_construction (st s2 : Orch) (r : Nat)
    (hf : st.fin = some (FinPhase.awaitStop r)) (hr : st.roundNumber = r)
    (hz : s2.messages = []) :
    (jsTrim (joinTexts st.currentRound.segments) ≠ "" →
        (finalizeResumeStop st).messages
          = st.messages ++ [⟨Role.user, joinTexts st.currentRound.segments, []⟩]
          ∧ (finalizeResumeStop st).aiCalls = st.aiCalls + 1)
    ∧ (jsTrim (joinTexts st.currentRound.segments) = "" →
        jsTrim st.currentRound.interimText ≠ "" →
        (finalizeResumeStop st).messages
          = st.messages ++ [⟨Role.user, jsTrim st.currentRound.interimText, []⟩]
          ∧ (finalizeResumeStop st).aiCalls = st.aiCalls + 1)
    ∧ (jsTrim (joinTexts st.currentRound.segments) = "" →
        jsTrim st.currentRound.interimText = "" →
        (finalizeResumeStop st).aiCalls = st.aiCalls
          ∧ (finalizeResumeStop st).state = OState.IDLE
          ∧ (finalizeResumeStop st).savedSessions
              = st.savedSessions ++ (if st.messages ≠ [] then [st.messages] else []))
    ∧ (saveAndReset s2).savedSessions = s2.savedSessions
    ∧ joinTexts [⟨1, "find"⟩, ⟨2, "files"⟩, ⟨3, "bigger"⟩, ⟨4, "than"⟩, ⟨5, "a"⟩, ⟨6, "gig"⟩]
        = "find files bigger than a gig" := by
  refine ⟨?_, ?_, ?_, ?_, by decide⟩
  · intro hj
    constructor
    · simp [finalizeResumeStop, hf, hr, hj, respondStart]
    · simp [finalizeResumeStop, hf, hr, hj, respondStart]
  · intro hj hi
    constructor
    · simp [finalizeResumeStop, hf, hr, hj, hi, jsTrim_idem, respondStart]
    · simp [finalizeResumeStop, hf, hr, hj, hi, jsTrim_idem, respondStart]
  · intro hj hi
    refine ⟨?_, ?_, ?_⟩
    · simp [finalizeResumeStop, hf, hr, hj, hi, saveAndReset, hideAndReset, reset,
        apply_ite]
    · simp [finalizeResumeStop, hf, hr, hj, hi, saveAndReset, hideAndReset, reset,
        apply_ite]
    · by_cases hm : st.messages = []
      · simp [finalizeResumeStop, hf, hr, hj, hi, saveAndReset, hideAndReset, reset,
          apply_ite, hm]
      · simp [finalizeResumeStop, hf, hr, hj, hi, saveAndReset, hideAndReset, reset,
          apply_ite, hm]
  · unfold saveAndReset hideAndReset reset
    simp [hz]

/-- C3 witness: the six example segments produce the single user message
"find files bigger than a gig". -/
theorem c3_transcript_construction_witness :
    (finalizeResumeStop ⟨OState.CONVERSING, 0,
        ⟨[⟨1, "find"⟩, ⟨2, "files"⟩, ⟨3, "bigger"⟩, ⟨4, "than"⟩, ⟨5, "a"⟩, ⟨6, "gig"⟩], 6, ""⟩,
        [], false, true, false, some (FinPhase.awaitStop 0), none, true, true, 1, 0, [], []⟩).messages
      = [⟨Role.user, "find files bigger than a gig", []⟩] := by
  have h := c3_transcript_construction
    ⟨OState.CONVERSING, 0,
      ⟨[⟨1, "find"⟩, ⟨2, "files"⟩, ⟨3, "bigger"⟩, ⟨4, "than"⟩, ⟨5, "a"⟩, ⟨6, "gig"⟩], 6, ""⟩,
      [], false, true, false, some (FinPhase.awaitStop 0), none, true, true, 1, 0, [], []⟩
    ⟨OState.CONVERSING, 0,
      ⟨[⟨1, "find"⟩, ⟨2, "files"⟩, ⟨3, "bigger"⟩, ⟨4, "than"⟩, ⟨5, "a"⟩, ⟨6, "gig"⟩], 6, ""⟩,
      [], false, true, false, some (FinPhase.awaitStop 0), none, true, true, 1, 0, [], []⟩
    0 rfl rfl rfl
  rw [(h.1 (by decide)).1]
  decide

/-- C8: a cancel while not IDLE moves the state to CANCELLED, initiates the
transcription stop, emits the cancel UI event once the stop completes,
schedules the reset behind the fixed 300 ms delay, and the fired timer resets
the state to IDLE — with the history store never written at any of these
steps; a cancel or close while already IDLE is a no-op with no emitted event
and no resource access. -/
theorem c8_cancel_flow (st s2 : Orch)
    (h : st.state ≠ OState.IDLE) (h2 : s2.state = OState.IDLE) :
    (onCancel st).state = OState.CANCELLED
    ∧ (onCancel st).stopCalls = st.stopCalls + 1
    ∧ (onCancel st).savedSessions = st.savedSessions
    ∧ (cancelResumeStop (onCancel st)).events = st.events ++ [UEvent.cancelled]
    ∧ (cancelResumeStop (onCancel st)).transcriptionOn = false
    ∧ (cancelResumeStop (onCancel st)).can = some (CancelPhase.timerPending 300)
    ∧ (cancelTimerFire (cancelResumeStop (onCancel st))).state = OState.IDLE
    ∧ (cancelTimerFire (cancelResumeStop (onCancel st))).savedSessions = st.savedSessions
    ∧ (cancelTimerFire (cancelResumeStop (onCancel st))).events
        = st.events ++ [UEvent.cancelled, UEvent.hidden]
    ∧ onCancel s2 = s2
    ∧ onClose s2 = s2 := by
  have e1 : onCancel st
      = { st with state := OState.CANCELLED, can := some CancelPhase.awaitStop,
                  stopCalls := st.stopCalls + 1 } := by
    simp [onCancel, h]
  have e2 : cancelResumeStop (onCancel st)
      = { st with state := OState.CANCELLED, stopCalls := st.stopCalls + 1,
                  transcriptionOn := false,
                  events := st.events ++ [UEvent.cancelled],
                  can := some (CancelPhase.timerPending 300) } := by
    rw [e1]
    simp [cancelResumeStop]
  have e3 : cancelTimerFire (cancelResumeStop (onCancel st))
      = reset { st with state := OState.CANCELLED, stopCalls := st.stopCalls + 1,
                        transcriptionOn := false,
                        events := st.events ++ [UEvent.cancelled, UEvent.hidden],
                        can := none } := by
    rw [e2]
    simp [cancelTimerFire, hideAndReset]
  refine ⟨by rw [e1], by rw [e1], by rw [e1], by rw [e2], by rw [e2], by rw [e2],
          by rw [e3]; simp [reset], by rw [e3]; simp [reset], by rw [e3]; simp [reset],
          by simp [onCancel, h2], by simp [onClose, h2]⟩

/-- C8 witness: a recording session cancelled end to end, and cancel/close
no-ops on an idle state. -/
theorem c8_cancel_flow_witness :
    (onCancel ⟨OState.RECORDING, 0, emptyRound, [], false, false, true, none,
        none, true, true, 0, 0, [], []⟩).state = OState.CANCELLED
    ∧ (cancelTimerFire (cancelResumeStop (onCancel ⟨OState.RECORDING, 0, emptyRound,
        [], false, false, true, none, none, true, true, 0, 0, [], []⟩))).state = OState.IDLE
    ∧ onCancel ⟨OState.IDLE, 0, emptyRound, [], false, false, false, none,
        none, false, false, 0, 0, [], []⟩
      = ⟨OState.IDLE, 0, emptyRound, [], false, false, false, none,
        none, false, false, 0, 0, [], []⟩ := by
  have h := c8_cancel_flow
    ⟨OState.RECORDING, 0, emptyRound, [], false, false, true, none,
      none, true, true, 0, 0, [], []⟩
    ⟨OState.IDLE, 0, emptyRound, [], false, false, false, none,
      none, false, false, 0, 0, [], []⟩
    (by decide) rfl
  exact ⟨h.1, h.2.2.2.2.2.2.1, h.2.2.2.2.2.2.2.2.2.1⟩

end Topside
